import Mathlib

set_option autoImplicit false

/-!
Shallow embedding of the event-sorcerer runtime core
(packages/runtime/src/main and the sibling source snapshots).

Conventions of the embedding:
* JS `bigint` versions become `Int`; indices become `Nat` and are cast with
  `Int.ofNat` where the source writes `BigInt(index)`.
* UUIDs are opaque values; `uuid5(name, namespace)` is the injective
  constructor `Uuid.v5`, `uuid4()` / literal ids are `Uuid.str`.
* `Date.now()` is modelled as an explicit clock argument `now : Int`.
* JS `Map` objects become association lists (`mapGet`/`mapSet`/`mapDelete`
  reproduce `Map.get`/`Map.set`/`Map.delete`, including insertion order).
* A method that can throw returns `Option OptimisticLockError × Store`
  (the store component is the state of the object after the call, also
  when it throws).
-/

namespace EventSorcerer

/-- Opaque UUID values; `v5 name ns` models `uuid5(name, ns)`. -/
inductive Uuid where
  | str (s : String)
  | v5 (name : String) (ns : Uuid)
deriving DecidableEq, Repr

/-- Message payloads are opaque to the runtime; modelled as strings. -/
abbrev Payload := String

/-- `IMessage` from message-types: `{type, payload}`. -/
structure IMessage where
  type : String
  payload : Payload
deriving DecidableEq, Repr

/-- `IIdentifiableMessage` (alias `IDispatchedMessage` in the es-types
snapshot): a message with identity, causation and correlation. -/
structure IIdentifiableMessage where
  type : String
  payload : Payload
  id : Uuid
  timestamp : Int
  causationId : Option Uuid
  correlationId : Uuid
deriving DecidableEq, Repr

/-- `IVersionedMessage`: an identifiable message with a stream version. -/
structure IVersionedMessage where
  type : String
  payload : Payload
  id : Uuid
  timestamp : Int
  causationId : Option Uuid
  correlationId : Uuid
  version : Int
deriving DecidableEq, Repr

/-- `originateCommand(command, requestId)` from message-utils (part_012)
and es-utils: `id = requestId`, `correlationId = requestId`,
`causationId = null`. -/
def originateCommand (now : Int) (command : IMessage) (requestId : Uuid) :
    IIdentifiableMessage :=
  { type := command.type
    id := requestId
    payload := command.payload
    timestamp := now
    causationId := none
    correlationId := requestId }

/-- `deriveCommand(event, command, index)` from message-utils (part_012) and
es-utils (Repository.ts lines 130-139): `id = uuid5(index.toString(), event.id)`,
`causationId = event.id`, `correlationId = event.correlationId`. -/
def deriveCommand (now : Int) (event : IIdentifiableMessage) (command : IMessage)
    (index : Nat) : IIdentifiableMessage :=
  { id := Uuid.v5 (toString index) event.id
    type := command.type
    payload := command.payload
    timestamp := now
    causationId := some event.id
    correlationId := event.correlationId }

/-- `deriveEvent(command, event, index)` from message-utils (part_012) and
es-utils (Repository.ts lines 141-150): `id = uuid5(index.toString(), command.id)`,
`causationId = command.causationId` (the cause's own causation id, not its id),
`correlationId = command.correlationId`. -/
def deriveEvent (now : Int) (command : IIdentifiableMessage) (event : IMessage)
    (index : Nat) : IIdentifiableMessage :=
  { id := Uuid.v5 (toString index) command.id
    type := event.type
    payload := event.payload
    timestamp := now
    causationId := command.causationId
    correlationId := command.correlationId }

/-- `deriveVersionedEvent(command, event, baseVersion, index)` from es-utils
(Repository.ts lines 152-157): spreads `deriveEvent` and adds
`version = baseVersion + BigInt(index)`. -/
def deriveVersionedEvent (now : Int) (command : IIdentifiableMessage)
    (event : IMessage) (baseVersion : Int) (index : Nat) : IVersionedMessage :=
  let m := deriveEvent now command event index
  { type := m.type
    payload := m.payload
    id := m.id
    timestamp := m.timestamp
    causationId := m.causationId
    correlationId := m.correlationId
    version := baseVersion + Int.ofNat index }

/-- `deriveAggregateEvent(command, event, baseVersion, index)` from
message-utils (part_012 lines 71-76); its body is textually identical to
`deriveVersionedEvent`: `version = baseVersion + BigInt(index)`. -/
def deriveAggregateEvent (now : Int) (command : IIdentifiableMessage)
    (event : IMessage) (baseVersion : Int) (index : Nat) : IVersionedMessage :=
  let m := deriveEvent now command event index
  { type := m.type
    payload := m.payload
    id := m.id
    timestamp := m.timestamp
    causationId := m.causationId
    correlationId := m.correlationId
    version := baseVersion + Int.ofNat index }

/-- JS `Array.prototype.map((x, i) => f i x)`: map with the element index. -/
def mapWithIndexFrom {α β : Type} (f : Nat → α → β) : Nat → List α → List β
  | _, [] => []
  | i, x :: xs => f i x :: mapWithIndexFrom f (i + 1) xs

/-- `xs.map((x, i) => f i x)` with indices starting at 0. -/
def jsMapIdx {α β : Type} (f : Nat → α → β) (xs : List α) : List β :=
  mapWithIndexFrom f 0 xs

/-! ### Association-list model of JS `Map` -/

/-- `Map.get(k)`: the value at the first matching key. -/
def mapGet {κ β : Type} [DecidableEq κ] : List (κ × β) → κ → Option β
  | [], _ => none
  | (k, v) :: xs, k' => if k' = k then some v else mapGet xs k'

/-- `Map.set(k, v)`: replace the first matching entry or append a new one
(the insertion order of a JS `Map` is preserved). -/
def mapSet {κ β : Type} [DecidableEq κ] : List (κ × β) → κ → β → List (κ × β)
  | [], k', v' => [(k', v')]
  | (k, v) :: xs, k', v' =>
    if k' = k then (k, v') :: xs else (k, v) :: mapSet xs k' v'

/-- `Map.delete(k)`: remove the first matching entry. -/
def mapDelete {κ β : Type} [DecidableEq κ] : List (κ × β) → κ → List (κ × β)
  | [], _ => []
  | (k, v) :: xs, k' => if k' = k then xs else (k, v) :: mapDelete xs k'

/-! ### Snapshots and the in-memory event store (MemoryEventStore, part_013) -/

/-- `IAggregateSnapshot` / `ISnapshot`: `{id, version, state}`. -/
structure ISnapshot (State : Type) where
  id : Uuid
  version : Int
  state : State
deriving DecidableEq, Repr

/-- `OptimisticLockError(name)` from OptimisticLockError.ts / part_013. -/
structure OptimisticLockError where
  name : String
deriving DecidableEq, Repr

/-- The mutable state of a `MemoryEventStore` instance (part_013):
`eventStreams : Map<string, Map<Uuid, Array<IVersionedMessage>>>` and
`snapshots : Map<string, Map<Uuid, IAggregateSnapshot>>`. -/
structure MemoryEventStore (State : Type) where
  eventStreams : List (String × List (Uuid × List IVersionedMessage))
  snapshots : List (String × List (Uuid × ISnapshot State))
deriving DecidableEq, Repr

namespace MemoryEventStore

variable {State : Type}

/-- A store in which nothing was ever saved. -/
def empty : MemoryEventStore State := { eventStreams := [], snapshots := [] }

/-- `exists(name, id)` (part_013 lines 21-23):
`eventStreams.get(name)?.get(id) != null || snapshots.get(name)?.get(id) != null`. -/
def «exists» (s : MemoryEventStore State) (name : String) (id : Uuid) : Bool :=
  ((mapGet s.eventStreams name).bind (fun t => mapGet t id)).isSome
    || ((mapGet s.snapshots name).bind (fun t => mapGet t id)).isSome

/-- `loadSnapshot(name, id)` (part_013 lines 25-27). -/
def loadSnapshot (s : MemoryEventStore State) (name : String) (id : Uuid) :
    Option (ISnapshot State) :=
  (mapGet s.snapshots name).bind (fun t => mapGet t id)

/-- `saveSnapshot(name, snapshot)` (part_013 lines 29-43): creates the
per-name table when absent, throws `OptimisticLockError` when the stored
snapshot is strictly newer, otherwise stores the snapshot. -/
def saveSnapshot (s : MemoryEventStore State) (name : String)
    (snapshot : ISnapshot State) : Option OptimisticLockError × MemoryEventStore State :=
  let s1 := if (mapGet s.snapshots name).isSome then s
            else { s with snapshots := mapSet s.snapshots name [] }
  let snapshots := (mapGet s1.snapshots name).getD []
  match mapGet snapshots snapshot.id with
  | some latestSnapshot =>
    if snapshot.version < latestSnapshot.version then
      (some { name := name }, s1)
    else
      (none, { s1 with snapshots := mapSet s1.snapshots name (mapSet snapshots snapshot.id snapshot) })
  | none =>
    (none, { s1 with snapshots := mapSet s1.snapshots name (mapSet snapshots snapshot.id snapshot) })

/-- `dropSnapshot(name, id, version)` (part_013 lines 45-51): deletes the
snapshot only when its version matches. -/
def dropSnapshot (s : MemoryEventStore State) (name : String) (id : Uuid)
    (version : Int) : MemoryEventStore State :=
  match mapGet s.snapshots name with
  | none => s
  | some snapshots =>
    match mapGet snapshots id with
    | some snapshot =>
      if snapshot.version = version then
        { s with snapshots := mapSet s.snapshots name (mapDelete snapshots id) }
      else s
    | none => s

/-- `loadEvents(name, id, baseVersion?)` (part_013 lines 53-68): the whole
stream when `baseVersion` is omitted, otherwise the events with
`version > baseVersion`. -/
def loadEvents (s : MemoryEventStore State) (name : String) (id : Uuid)
    (baseVersion : Option Int) : List IVersionedMessage :=
  match (mapGet s.eventStreams name).bind (fun t => mapGet t id) with
  | none => []
  | some eventStream =>
    match baseVersion with
    | none => eventStream
    | some b => eventStream.filter (fun e => b < e.version)

/-- `saveEvents(name, snapshot, events)` (part_013 lines 70-93): empty event
lists return at once; a missing stream is created from the events; a
non-empty stream whose last version differs from `snapshot.version` raises
`OptimisticLockError`; otherwise the events are pushed onto the stream. -/
def saveEvents (s : MemoryEventStore State) (name : String)
    (snapshot : ISnapshot State) (events : List IVersionedMessage) :
    Option OptimisticLockError × MemoryEventStore State :=
  if events = [] then (none, s)
  else
    let s1 := if (mapGet s.eventStreams name).isSome then s
              else { s with eventStreams := mapSet s.eventStreams name [] }
    let eventStreams := (mapGet s1.eventStreams name).getD []
    match mapGet eventStreams snapshot.id with
    | none =>
      (none, { s1 with eventStreams := mapSet s1.eventStreams name (mapSet eventStreams snapshot.id events) })
    | some eventStream =>
      if eventStream ≠ [] ∧ eventStream.getLast?.map (fun e => e.version) ≠ some snapshot.version then
        (some { name := name }, s1)
      else
        (none, { s1 with eventStreams := mapSet s1.eventStreams name (mapSet eventStreams snapshot.id (eventStream ++ events)) })

end MemoryEventStore

/-! ### Agents, handlers and the repository -/

/-- `IStatefulHandler` / `IAggregateHandler`: the opaque business-logic
object; the runtime only ever calls `createInitialState()` on it directly. -/
structure IStatefulHandler (State : Type) where
  createInitialState : Unit → State

/-- The capability surface of an `IAggregate` agent as used by the runtime:
`name`, `isSupportedCommand`, `getAggregateId`, `handleCommand` and
`applyEvent`.  `Arrays.fromMany` normalisation of the `Many<IMessage>`
return value and the `events == null` check are folded into returning a
plain list (`null`/missing becomes `[]`). -/
structure IAggregate (State : Type) where
  name : String
  isSupportedCommand : IIdentifiableMessage → Bool
  getAggregateId : IIdentifiableMessage → Uuid
  handleCommand : IStatefulHandler State → IIdentifiableMessage → State → List IMessage
  applyEvent : IStatefulHandler State → IVersionedMessage → State → State

/-- `IProcessManager`: an aggregate that additionally adopts foreign events.
`handleAdoptedEvent` receives the loaded snapshot, exactly as
`createEventSourcingRouter.handleEvent` passes it (part_010 line 95), and
returns `Maybe<Many<IMessage>>`, modelled as `Option (List IMessage)`. -/
structure IProcessManager (State : Type) where
  asAggregate : IAggregate State
  isAdoptedEvent : IIdentifiableMessage → Bool
  handleAdoptedEvent : IStatefulHandler State → IIdentifiableMessage → ISnapshot State → Option (List IMessage)

/-- `IEventListener`: a stateless agent reacting to adopted events; its
opaque handler object is closed over by `handleAdoptedEvent`. -/
structure IEventListener where
  name : String
  isAdoptedEvent : IIdentifiableMessage → Bool
  handleAdoptedEvent : IIdentifiableMessage → Option (List IMessage)

namespace Repository

variable {State : Type}

/-- `Repository.load(agent, handler, id)` (Repository.ts lines 25-44) over a
`MemoryEventStore`: loads the latest snapshot (or synthesizes one at version
0 from `handler.createInitialState()`), replays the events after the
snapshot version in store order, and advances the version to each replayed
event's version.  The JS truthiness of `latestSnapshot?.state || ...` and
`latestSnapshot?.version || 0n` is modelled as presence of the snapshot
(`0n` is falsy, so the version case is exact). -/
def load (s : MemoryEventStore State) (agent : IAggregate State)
    (handler : IStatefulHandler State) (id : Uuid) : ISnapshot State :=
  let latestSnapshot := MemoryEventStore.loadSnapshot s agent.name id
  let state :=
    match latestSnapshot with
    | some sn => sn.state
    | none => handler.createInitialState ()
  let version : Int :=
    match latestSnapshot with
    | some sn => sn.version
    | none => 0
  let eventStream :=
    MemoryEventStore.loadEvents s agent.name id (latestSnapshot.map (fun sn => sn.version))
  let p := eventStream.foldl
    (fun (p : State × Int) event => (agent.applyEvent handler event p.1, event.version))
    (state, version)
  { id := id, version := p.2, state := p.1 }

/-- `Repository.save(agent, snapshot, events)` (Repository.ts lines 46-48):
delegates to `eventStore.saveEvents(agent.name, snapshot, events)`. -/
def save (s : MemoryEventStore State) (agent : IAggregate State)
    (snapshot : ISnapshot State) (events : List IVersionedMessage) :
    Option OptimisticLockError × MemoryEventStore State :=
  MemoryEventStore.saveEvents s agent.name snapshot events

end Repository

/-! ### The event-sourcing router (createEventSourcingRouter, part_010) -/

/-- The observable outcome of one `repository.save` call, as seen by the
router's catch clause: success, `OptimisticLockError`, or any other error. -/
inductive SaveOutcome where
  | ok
  | lockError
  | otherError
deriving DecidableEq, Repr

/-- The injected `IRepository` collaborator of the router, over an abstract
repository state `σ` (instantiated with `MemoryEventStore State` for the
reference store, see `memoryRepo`). -/
structure RepoModel (State σ : Type) where
  load : σ → IAggregate State → IStatefulHandler State → Uuid → ISnapshot State × σ
  save : σ → IAggregate State → ISnapshot State → List IVersionedMessage → SaveOutcome × σ

/-- Errors surfaced by router message handling. -/
inductive RouterError where
  | unhandledCommand
  | optimisticLock
  | otherError
deriving DecidableEq, Repr

/-- The `RepoModel` built from `Repository` over a `MemoryEventStore`:
loads never modify the store, and the only error `saveEvents` raises is
`OptimisticLockError`. -/
def memoryRepo (State : Type) : RepoModel State (MemoryEventStore State) :=
  { load := fun s agent handler id => (Repository.load s agent handler id, s)
    save := fun s agent snapshot events =>
      match MemoryEventStore.saveEvents s agent.name snapshot events with
      | (none, s2) => (SaveOutcome.ok, s2)
      | (some _, s2) => (SaveOutcome.lockError, s2) }

namespace EventSourcingRouter

variable {State σ : Type}

/-- The retry loop of `createEventSourcingRouter.handleCommand`
(part_010 lines 59-78): `for (let i = 0; true; i++) { load; handle; derive;
try { save; return } catch (e) { if (e instanceof OptimisticLockError &&
i < 5) continue; throw e; } }`.  The ascending counter `i` is represented
by `remaining = 5 - i`, so the retry guard `i < 5` is `remaining ≠ 0`.
The second component of the result records the outcome of each
`repository.save` call, in order, as an observable trace. -/
def handleCommandAttempts (repo : RepoModel State σ) (aggregate : IAggregate State)
    (handler : IStatefulHandler State) (command : IIdentifiableMessage) (now : Int) :
    Nat → σ → Except RouterError σ × List SaveOutcome
  | remaining, s =>
    let ls := repo.load s aggregate handler (aggregate.getAggregateId command)
    let snapshot := ls.1
    let events := aggregate.handleCommand handler command snapshot.state
    if events = [] then (Except.ok ls.2, [])
    else
      let nextEvents :=
        jsMapIdx (fun index event => deriveVersionedEvent now command event snapshot.version index) events
      match repo.save ls.2 aggregate snapshot nextEvents with
      | (SaveOutcome.ok, s2) => (Except.ok s2, [SaveOutcome.ok])
      | (SaveOutcome.otherError, _) => (Except.error RouterError.otherError, [SaveOutcome.otherError])
      | (SaveOutcome.lockError, s2) =>
        match remaining with
        | Nat.succ r =>
          let p := handleCommandAttempts repo aggregate handler command now r s2
          (p.1, SaveOutcome.lockError :: p.2)
        | 0 => (Except.error RouterError.optimisticLock, [SaveOutcome.lockError])

/-- `createEventSourcingRouter.handleCommand` (part_010 lines 36-79):
resolve the owning agent by scanning the aggregate registry first, then the
process-manager registry; no match throws `UnhandledCommandError`; a match
enters the retry loop. -/
def handleCommand (repo : RepoModel State σ)
    (aggregateMap : List (IAggregate State × IStatefulHandler State))
    (processManagerMap : List (IProcessManager State × IStatefulHandler State))
    (command : IIdentifiableMessage) (now : Int) (s : σ) :
    Except RouterError σ × List SaveOutcome :=
  match aggregateMap.find? (fun e => e.1.isSupportedCommand command) with
  | some e => handleCommandAttempts repo e.1 e.2 command now 5 s
  | none =>
    match processManagerMap.find? (fun e => e.1.asAggregate.isSupportedCommand command) with
    | some e => handleCommandAttempts repo e.1.asAggregate e.2 command now 5 s
    | none => (Except.error RouterError.unhandledCommand, [])

/-- `createEventSourcingRouter.handleEvent` (part_010 lines 81-107): collect
the commands of all matching event listeners (in registration order), then
of all matching process managers (in registration order, each against its
loaded snapshot), derive each command with its index in the combined list,
and dispatch the derived commands as one batch (`none` means the dispatcher
was not called, which the source does when no commands were produced). -/
def handleEvent (repo : RepoModel State σ) (eventListenerMap : List IEventListener)
    (processManagerMap : List (IProcessManager State × IStatefulHandler State))
    (event : IIdentifiableMessage) (now : Int) (s : σ) :
    Option (List IIdentifiableMessage) × σ :=
  let listenerCommands := eventListenerMap.foldl
    (fun acc l => if l.isAdoptedEvent event then acc ++ (l.handleAdoptedEvent event).getD [] else acc)
    ([] : List IMessage)
  let p := processManagerMap.foldl
    (fun (p : List IMessage × σ) e =>
      if e.1.isAdoptedEvent event then
        let ls := repo.load p.2 e.1.asAggregate e.2 (e.1.asAggregate.getAggregateId event)
        (p.1 ++ (e.1.handleAdoptedEvent e.2 event ls.1).getD [], ls.2)
      else p)
    (listenerCommands, s)
  if p.1 = [] then (none, p.2)
  else (some (jsMapIdx (fun index command => deriveCommand now event command index) p.1), p.2)

end EventSourcingRouter

/-- A registration step of the router, remembering the interleaving of
`registerEventListener` and `registerProcessManager` calls. -/
inductive RegisteredAgent (State : Type) where
  | listener (l : IEventListener)
  | processManager (pm : IProcessManager State) (handler : IStatefulHandler State)

/-- The event-listener registry produced by a registration sequence. -/
def registeredListeners {State : Type} (agents : List (RegisteredAgent State)) :
    List IEventListener :=
  agents.filterMap (fun a =>
    match a with
    | RegisteredAgent.listener l => some l
    | RegisteredAgent.processManager _ _ => none)

/-- The process-manager registry produced by a registration sequence. -/
def registeredProcessManagers {State : Type} (agents : List (RegisteredAgent State)) :
    List (IProcessManager State × IStatefulHandler State) :=
  agents.filterMap (fun a =>
    match a with
    | RegisteredAgent.listener _ => none
    | RegisteredAgent.processManager pm h => some (pm, h))

/-- The spec's description of `handleEvent` ("iterate agents in registration
order, then commands in the order each handler returned them"; derive with
the index in the combined list; forward as one batch): stated over the raw
registration sequence, to be compared with the router's implementation. -/
def specHandleEvent {State σ : Type} (repo : RepoModel State σ)
    (agents : List (RegisteredAgent State)) (event : IIdentifiableMessage)
    (now : Int) (s : σ) : Option (List IIdentifiableMessage) × σ :=
  let p := agents.foldl
    (fun (p : List IMessage × σ) a =>
      match a with
      | RegisteredAgent.listener l =>
        if l.isAdoptedEvent event then (p.1 ++ (l.handleAdoptedEvent event).getD [], p.2) else p
      | RegisteredAgent.processManager pm handler =>
        if pm.isAdoptedEvent event then
          let ls := repo.load p.2 pm.asAggregate handler (pm.asAggregate.getAggregateId event)
          (p.1 ++ (pm.handleAdoptedEvent handler event ls.1).getD [], ls.2)
        else p)
    (([] : List IMessage), s)
  if p.1 = [] then (none, p.2)
  else (some (jsMapIdx (fun index command => deriveCommand now event command index) p.1), p.2)

/-! ### The duck-typed router of the main package (AgentRouter.ts) -/

/-- The agent shape probed by `AgentRouter` (AgentRouter.ts): optional
capability fields; the opaque handler object is closed over by the
callbacks. -/
structure RouterAgent (State : Type) where
  name : String
  commandTypes : Option (List String)
  adoptedEventMap : Option (List String)
  getAggregateId : Option (IIdentifiableMessage → Uuid)
  handleCommand : Option (IIdentifiableMessage → Option State → List IMessage)

namespace AgentRouter

variable {State σ : Type}

/-- `AgentRouter.handleCommand` (AgentRouter.ts lines 47-66): scans all
registered agents; an agent whose `commandTypes` misses the command type is
skipped; otherwise a snapshot is loaded when the agent is stateful, the
handler is invoked, and the returned messages are derived
(`deriveVersionedEvent` against `snapshot?.version || 0n` for stateful
agents, `deriveEvent` otherwise).  The method ends with
`if (events?.length) { // dispatch }` whose block is empty in the source:
nothing is ever dispatched, no routing error is ever thrown, and the method
resolves normally.  The result is the pair of the completion value and the
list of dispatched batches (always `Except.ok ()` and `[]`). -/
def handleCommand (loadFn : σ → Uuid → ISnapshot State × σ)
    (agentHandlers : List (RouterAgent State)) (command : IIdentifiableMessage)
    (now : Int) (s : σ) :
    Except RouterError Unit × List (List IIdentifiableMessage) :=
  let _loop := agentHandlers.foldl
    (fun (p : Option (List IVersionedMessage ⊕ List IIdentifiableMessage) × σ) agent =>
      if (agent.commandTypes.getD []).contains command.type then
        match agent.getAggregateId with
        | some getId =>
          let ls := loadFn p.2 (getId command)
          match agent.handleCommand with
          | some h =>
            let e := h command (some ls.1.state)
            (some (Sum.inl (jsMapIdx
              (fun index event => deriveVersionedEvent now command event ls.1.version index) e)), ls.2)
          | none => (p.1, ls.2)
        | none =>
          match agent.handleCommand with
          | some h =>
            let e := h command none
            (some (Sum.inr (jsMapIdx (fun index event => deriveEvent now command event index) e)), p.2)
          | none => p
      else p)
    (none, s)
  (Except.ok (), [])

end AgentRouter

/-! ### Concrete fixtures used by the claim theorems -/

/-- A trivial stateful handler over the unit state. -/
def unitHandler : IStatefulHandler Unit := { createInitialState := fun _ => () }

/-- The injected repository used where only the router's control flow
matters: loads return a version-0 snapshot and saves always succeed. -/
def unitRepo : RepoModel Unit Unit :=
  { load := fun s _ _ id => ({ id := id, version := 0, state := () }, s)
    save := fun s _ _ _ => (SaveOutcome.ok, s) }

/-- An injected repository whose every save fails with
`OptimisticLockError`, as produced by a permanently conflicting concurrent
writer; the repository state counts the save calls. -/
def alwaysLockRepo : RepoModel Unit Nat :=
  { load := fun s _ _ id => ({ id := id, version := 0, state := () }, s)
    save := fun s _ _ _ => (SaveOutcome.lockError, s + 1) }

/-- A `"Cart"` aggregate producing one `ITEM_ADDED` event per `ADD_ITEM`
command (the scenario of spec section 8). -/
def cartAggregate : IAggregate Unit :=
  { name := "Cart"
    isSupportedCommand := fun m => m.type == "ADD_ITEM"
    getAggregateId := fun _ => Uuid.str "c1"
    handleCommand := fun _ _ _ => [{ type := "ITEM_ADDED", payload := "sku X" }]
    applyEvent := fun _ _ st => st }

/-- A first `ADD_ITEM` command originated from request `req1`. -/
def addItemCommand1 : IIdentifiableMessage :=
  originateCommand 0 { type := "ADD_ITEM", payload := "sku X" } (Uuid.str "req1")

/-- A second `ADD_ITEM` command originated from request `req2`. -/
def addItemCommand2 : IIdentifiableMessage :=
  originateCommand 0 { type := "ADD_ITEM", payload := "sku X" } (Uuid.str "req2")

/-- The store after routing `addItemCommand1` into an empty store. -/
def cartStore1 : MemoryEventStore Unit :=
  match EventSourcingRouter.handleCommand (memoryRepo Unit) [(cartAggregate, unitHandler)] []
      addItemCommand1 0 MemoryEventStore.empty with
  | (Except.ok s, _) => s
  | (Except.error _, _) => MemoryEventStore.empty

/-- The store after routing `addItemCommand2` into `cartStore1`. -/
def cartStore2 : MemoryEventStore Unit :=
  match EventSourcingRouter.handleCommand (memoryRepo Unit) [(cartAggregate, unitHandler)] []
      addItemCommand2 0 cartStore1 with
  | (Except.ok s, _) => s
  | (Except.error _, _) => cartStore1

/-- A concrete identifiable cause whose `causationId` differs from its own
`id` (it is itself a derived message). -/
def exampleCause : IIdentifiableMessage :=
  { type := "ADD_ITEM"
    payload := "sku X"
    id := Uuid.str "8091"
    timestamp := 0
    causationId := some (Uuid.str "bar")
    correlationId := Uuid.str "foo" }

/-- A raw message to derive from. -/
def exampleRaw : IMessage := { type := "ITEM_ADDED", payload := "sku X" }

/-- A process manager adopting every event and answering with one
`CMD_P` command. -/
def pmAgentP : IProcessManager Unit :=
  { asAggregate :=
      { name := "P"
        isSupportedCommand := fun _ => false
        getAggregateId := fun _ => Uuid.str "p1"
        handleCommand := fun _ _ _ => []
        applyEvent := fun _ _ st => st }
    isAdoptedEvent := fun _ => true
    handleAdoptedEvent := fun _ _ _ => some [{ type := "CMD_P", payload := "p" }] }

/-- An event listener adopting every event and answering with one
`CMD_L` command. -/
def listenerAgentL : IEventListener :=
  { name := "L"
    isAdoptedEvent := fun _ => true
    handleAdoptedEvent := fun _ => some [{ type := "CMD_L", payload := "l" }] }

/-- A registration sequence that registers the process manager before the
event listener. -/
def pmFirstRegistration : List (RegisteredAgent Unit) :=
  [RegisteredAgent.processManager pmAgentP unitHandler,
   RegisteredAgent.listener listenerAgentL]

/-- An adopted foreign event. -/
def orderPlacedEvent : IIdentifiableMessage :=
  { type := "ORDER_PLACED"
    payload := "o1"
    id := Uuid.str "evt1"
    timestamp := 0
    causationId := none
    correlationId := Uuid.str "corr1" }

/-! ### Derived observations and the store operation model -/

/-- The stored stream at `(name, id)`, the empty list when absent. -/
def streamAt {State : Type} (s : MemoryEventStore State) (name : String) (id : Uuid) :
    List IVersionedMessage :=
  ((mapGet s.eventStreams name).bind (fun t => mapGet t id)).getD []

/-- The store mutations offered by the `IEventStore` interface. -/
inductive StoreOp (State : Type) where
  | saveSnapshot (name : String) (snapshot : ISnapshot State)
  | dropSnapshot (name : String) (id : Uuid) (version : Int)
  | saveEvents (name : String) (snapshot : ISnapshot State) (events : List IVersionedMessage)
deriving DecidableEq, Repr

/-- The store state after one mutation (the state an `IEventStore` object is
left in, also when the operation throws). -/
def applyOp {State : Type} (s : MemoryEventStore State) : StoreOp State → MemoryEventStore State
  | StoreOp.saveSnapshot name snapshot => (MemoryEventStore.saveSnapshot s name snapshot).2
  | StoreOp.dropSnapshot name id version => MemoryEventStore.dropSnapshot s name id version
  | StoreOp.saveEvents name snapshot events => (MemoryEventStore.saveEvents s name snapshot events).2

/-- Whether a mutation saves a snapshot or events for the `(name, id)` pair
(`dropSnapshot` never saves anything). -/
def opSavesTo {State : Type} : StoreOp State → String → Uuid → Bool
  | StoreOp.saveSnapshot n snapshot, name, id => n == name && snapshot.id == id
  | StoreOp.dropSnapshot _ _ _, _, _ => false
  | StoreOp.saveEvents n snapshot _, name, id => n == name && snapshot.id == id

/-- Neither map of the store has an entry for the `(name, id)` pair. -/
def untouched {State : Type} (s : MemoryEventStore State) (name : String) (id : Uuid) : Prop :=
  ((mapGet s.eventStreams name).bind (fun t => mapGet t id)) = none ∧
    ((mapGet s.snapshots name).bind (fun t => mapGet t id)) = none

/-- A concrete stored event with the given version. -/
def storedEvent (v : Int) : IVersionedMessage :=
  { type := "ITEM_ADDED"
    payload := "sku X"
    id := Uuid.str "stored"
    timestamp := 0
    causationId := none
    correlationId := Uuid.str "corr1"
    version := v }

/-- A registered agent of the duck-typed router owning only the
`OTHER_CMD` command type. -/
def otherRouterAgent : RouterAgent Unit :=
  { name := "Other"
    commandTypes := some ["OTHER_CMD"]
    adoptedEventMap := none
    getAggregateId := none
    handleCommand := none }

end EventSorcerer

namespace EventSorcerer

/-! ### Helper lemmas about the association-list map model -/

theorem mapGet_mapSet_self {κ β : Type} [DecidableEq κ] (m : List (κ × β)) (k : κ) (v : β) :
    mapGet (mapSet m k v) k = some v := by
  induction m with
  | nil => simp [mapGet, mapSet]
  | cons a xs ih =>
    obtain ⟨ka, va⟩ := a
    by_cases hk : k = ka
    · simp [mapGet, mapSet, hk]
    · simp [mapGet, mapSet, hk, ih]

theorem mapGet_mapSet_ne {κ β : Type} [DecidableEq κ] (m : List (κ × β)) (k k' : κ) (v : β)
    (hne : k' ≠ k) : mapGet (mapSet m k v) k' = mapGet m k' := by
  induction m with
  | nil => simp [mapGet, mapSet, hne]
  | cons a xs ih =>
    obtain ⟨ka, va⟩ := a
    by_cases hk : k = ka
    · subst hk
      simp [mapGet, mapSet, hne]
    · by_cases hk' : k' = ka
      · simp [mapGet, mapSet, hk, hk']
      · simp [mapGet, mapSet, hk, hk', ih]

theorem mapGet_mapDelete_of_none {κ β : Type} [DecidableEq κ] (m : List (κ × β)) (k k' : κ)
    (h : mapGet m k = none) : mapGet (mapDelete m k') k = none := by
  induction m with
  | nil => simp [mapGet, mapDelete]
  | cons a xs ih =>
    obtain ⟨ka, va⟩ := a
    by_cases hk : k = ka
    · simp [mapGet, hk] at h
    · simp only [mapGet, if_neg hk] at h
      by_cases hk' : k' = ka
      · simpa [mapDelete, hk'] using h
      · simp [mapGet, mapDelete, hk, hk', ih h]

/-! ### Claim theorems -/

/-- Claim C1: the versions that `deriveVersionedEvent` and
`deriveAggregateEvent` assign to events derived from one command are
claimed to be `baseVersion+1 … baseVersion+N`; the code instead assigns
`baseVersion + index`, so at `baseVersion = 0` the two derived events get
versions `0` and `1`, the first of which equals the base version instead of
strictly exceeding it. -/
theorem deriveVersionedEvent_version_off_by_one :
    ((jsMapIdx (fun index event => deriveVersionedEvent 0 exampleCause event 0 index)
        [exampleRaw, exampleRaw]).map (fun e => e.version) = [0, 1])
    ∧ (deriveVersionedEvent 0 exampleCause exampleRaw 0 0).version = 0
    ∧ (deriveAggregateEvent 0 exampleCause exampleRaw 0 0).version = 0
    ∧ ¬ (0 < (deriveVersionedEvent 0 exampleCause exampleRaw 0 0).version) := by
  refine ⟨rfl, rfl, rfl, ?_⟩
  decide

/-- Claim C2: both derivation helpers are claimed to set
`causationId = cause.id` and `correlationId = cause.correlationId`.
`deriveCommand` does; `deriveEvent` instead copies the cause's own
`causationId`, so on a cause whose `causationId` differs from its `id` the
derived event's `causationId` is not the cause's `id`. -/
theorem deriveEvent_causation_field_reuse :
    (deriveCommand 0 exampleCause exampleRaw 0).causationId = some exampleCause.id
    ∧ (deriveCommand 0 exampleCause exampleRaw 0).correlationId = exampleCause.correlationId
    ∧ (deriveEvent 0 exampleCause exampleRaw 0).correlationId = exampleCause.correlationId
    ∧ (deriveEvent 0 exampleCause exampleRaw 0).causationId = exampleCause.causationId
    ∧ (deriveEvent 0 exampleCause exampleRaw 0).causationId ≠ some exampleCause.id := by
  refine ⟨rfl, rfl, rfl, rfl, ?_⟩
  decide

/-- Claim C3: replaying the stream of an aggregate built by routing
commands through `createEventSourcingRouter` into a fresh
`MemoryEventStore` is claimed to yield versions `1, 2, 3, …`; routing two
`ADD_ITEM` commands into the empty store instead produces the stream
versions `[0, 0]` — the first event collides with the base version and the
second repeats it. -/
theorem router_stream_versions_not_monotonic :
    (EventSourcingRouter.handleCommand (memoryRepo Unit) [(cartAggregate, unitHandler)] []
        addItemCommand1 0 MemoryEventStore.empty).1 = Except.ok cartStore1
    ∧ (EventSourcingRouter.handleCommand (memoryRepo Unit) [(cartAggregate, unitHandler)] []
        addItemCommand2 0 cartStore1).1 = Except.ok cartStore2
    ∧ (MemoryEventStore.loadEvents cartStore2 "Cart" (Uuid.str "c1") none).map
        (fun e => e.version) = [0, 0]
    ∧ ([(0 : Int), 0] ≠ [1, 2]) := by
  refine ⟨rfl, rfl, rfl, ?_⟩
  decide

/-- Claim C6: a command whose type no registered agent owns is claimed to
fail with the routing error and never to complete silently.
`createEventSourcingRouter.handleCommand` does throw
`UnhandledCommandError` (the error the spec calls
`UnroutableMessageError`), but `AgentRouter.handleCommand` of the main
package resolves normally, dispatching nothing, even though no registered
agent owns `ADD_ITEM`. -/
theorem unroutable_command_silent_in_agent_router :
    AgentRouter.handleCommand
        (fun (s : Unit) (id : Uuid) => (({ id := id, version := 0, state := () } : ISnapshot Unit), s))
        [otherRouterAgent] addItemCommand1 0 ()
      = (Except.ok (), [])
    ∧ EventSourcingRouter.handleCommand unitRepo [] [(pmAgentP, unitHandler)]
        addItemCommand1 0 ()
      = (Except.error RouterError.unhandledCommand, []) :=
  ⟨rfl, rfl⟩

/-- The retry loop of the router, characterized by the trace of its
`repository.save` outcomes: with `remaining` retries left it performs at
most `remaining + 1` attempts, surfaces `OptimisticLockError` only after
every one of the `remaining + 1` saves hit a lock conflict, surfaces any
other error at the attempt that raised it with only lock conflicts before
it, and succeeds after a prefix of lock conflicts (with a final successful
save, or without saving when the handler produced no events). -/
theorem handleCommandAttempts_trace {State σ : Type} (repo : RepoModel State σ)
    (aggregate : IAggregate State) (handler : IStatefulHandler State)
    (command : IIdentifiableMessage) (now : Int) :
    ∀ (remaining : Nat) (s : σ),
      (EventSourcingRouter.handleCommandAttempts repo aggregate handler command now
          remaining s).2.length ≤ remaining + 1
      ∧ (EventSourcingRouter.handleCommandAttempts repo aggregate handler command now
          remaining s).1 ≠ Except.error RouterError.unhandledCommand
      ∧ ((EventSourcingRouter.handleCommandAttempts repo aggregate handler command now
            remaining s).1 = Except.error RouterError.optimisticLock →
          (EventSourcingRouter.handleCommandAttempts repo aggregate handler command now
            remaining s).2 = List.replicate (remaining + 1) SaveOutcome.lockError)
      ∧ ((EventSourcingRouter.handleCommandAttempts repo aggregate handler command now
            remaining s).1 = Except.error RouterError.otherError →
          ∃ k, k ≤ remaining ∧
            (EventSourcingRouter.handleCommandAttempts repo aggregate handler command now
              remaining s).2 = List.replicate k SaveOutcome.lockError ++ [SaveOutcome.otherError])
      ∧ (∀ s2, (EventSourcingRouter.handleCommandAttempts repo aggregate handler command now
            remaining s).1 = Except.ok s2 →
          ∃ k, k ≤ remaining ∧
            ((EventSourcingRouter.handleCommandAttempts repo aggregate handler command now
                remaining s).2 = List.replicate k SaveOutcome.lockError ++ [SaveOutcome.ok]
              ∨ (EventSourcingRouter.handleCommandAttempts repo aggregate handler command now
                remaining s).2 = List.replicate k SaveOutcome.lockError)) := by
  intro remaining
  induction remaining with
  | zero =>
    intro s
    simp only [EventSourcingRouter.handleCommandAttempts]
    by_cases hev : aggregate.handleCommand handler command
        (repo.load s aggregate handler (aggregate.getAggregateId command)).1.state = []
    · simp only [hev, if_pos rfl]
      refine ⟨by simp, by simp, by simp, by simp, ?_⟩
      intro s2 _
      exact ⟨0, Nat.le_refl 0, Or.inr rfl⟩
    · rw [if_neg hev]
      rcases hsave : repo.save (repo.load s aggregate handler
          (aggregate.getAggregateId command)).2 aggregate
          (repo.load s aggregate handler (aggregate.getAggregateId command)).1
          (jsMapIdx (fun index event => deriveVersionedEvent now command event
            (repo.load s aggregate handler (aggregate.getAggregateId command)).1.version index)
            (aggregate.handleCommand handler command
              (repo.load s aggregate handler (aggregate.getAggregateId command)).1.state))
        with ⟨outcome, s2⟩
      cases outcome with
      | ok =>
        simp only [hsave]
        refine ⟨by simp, by simp, by simp, by simp, ?_⟩
        intro s3 _
        exact ⟨0, Nat.le_refl 0, Or.inl rfl⟩
      | lockError =>
        simp only [hsave]
        refine ⟨by simp, by simp, ?_, by simp, by simp⟩
        intro _
        rfl
      | otherError =>
        simp only [hsave]
        refine ⟨by simp, by simp, by simp, ?_, by simp⟩
        intro _
        exact ⟨0, Nat.le_refl 0, rfl⟩
  | succ r ih =>
    intro s
    rw [EventSourcingRouter.handleCommandAttempts]
    by_cases hev : aggregate.handleCommand handler command
        (repo.load s aggregate handler (aggregate.getAggregateId command)).1.state = []
    · simp only [hev, if_pos rfl]
      refine ⟨by simp, by simp, by simp, by simp, ?_⟩
      intro s2 _
      exact ⟨0, Nat.zero_le _, Or.inr rfl⟩
    · rw [if_neg hev]
      rcases hsave : repo.save (repo.load s aggregate handler
          (aggregate.getAggregateId command)).2 aggregate
          (repo.load s aggregate handler (aggregate.getAggregateId command)).1
          (jsMapIdx (fun index event => deriveVersionedEvent now command event
            (repo.load s aggregate handler (aggregate.getAggregateId command)).1.version index)
            (aggregate.handleCommand handler command
              (repo.load s aggregate handler (aggregate.getAggregateId command)).1.state))
        with ⟨outcome, s2⟩
      cases outcome with
      | ok =>
        simp only [hsave]
        refine ⟨by simp, by simp, by simp, by simp, ?_⟩
        intro s3 _
        exact ⟨0, Nat.zero_le _, Or.inl rfl⟩
      | lockError =>
        simp only [hsave]
        obtain ⟨ihlen, ihun, ihlock, ihother, ihok⟩ := ih s2
        refine ⟨?_, ?_, ?_, ?_, ?_⟩
        · simpa using Nat.succ_le_succ ihlen
        · simpa using ihun
        · intro h
          rw [ihlock h]
          simp [List.replicate_succ]
        · intro h
          obtain ⟨k, hk, htr⟩ := ihother h
          refine ⟨k + 1, Nat.succ_le_succ hk, ?_⟩
          rw [htr]
          simp [List.replicate_succ]
        · intro s3 h
          obtain ⟨k, hk, htr⟩ := ihok s3 h
          refine ⟨k + 1, Nat.succ_le_succ hk, ?_⟩
          cases htr with
          | inl htr => exact Or.inl (by rw [htr]; simp [List.replicate_succ])
          | inr htr => exact Or.inr (by rw [htr]; simp [List.replicate_succ])
      | otherError =>
        simp only [hsave]
        refine ⟨by simp, by simp, by simp, ?_, by simp⟩
        intro _
        exact ⟨0, Nat.zero_le _, rfl⟩

/-- Claim C4: for a non-empty event list, `MemoryEventStore.saveEvents`
raises `OptimisticLockError` exactly when the stored stream is non-empty
and its last stored version differs from `snapshot.version`, leaving the
whole store (hence the stored stream) unchanged; when the check passes the
events are appended to the stream in order, and a missing stream is
created from the events. -/
theorem saveEvents_optimistic_lock_guard {State : Type} (s : MemoryEventStore State)
    (name : String) (snapshot : ISnapshot State) (events : List IVersionedMessage)
    (hne : events ≠ []) :
    (∀ stream, mapGet ((mapGet s.eventStreams name).getD []) snapshot.id = some stream →
      (stream ≠ [] ∧ stream.getLast?.map (fun e => e.version) ≠ some snapshot.version →
        MemoryEventStore.saveEvents s name snapshot events = (some { name := name }, s))
      ∧ (¬(stream ≠ [] ∧ stream.getLast?.map (fun e => e.version) ≠ some snapshot.version) →
        (MemoryEventStore.saveEvents s name snapshot events).1 = none
        ∧ streamAt (MemoryEventStore.saveEvents s name snapshot events).2 name snapshot.id
          = stream ++ events))
    ∧ (mapGet ((mapGet s.eventStreams name).getD []) snapshot.id = none →
      (MemoryEventStore.saveEvents s name snapshot events).1 = none
      ∧ streamAt (MemoryEventStore.saveEvents s name snapshot events).2 name snapshot.id
        = events) := by
  cases houter : mapGet s.eventStreams name with
  | none =>
    constructor
    · intro stream hstream
      simp [mapGet] at hstream
    · intro _
      constructor
      · simp [MemoryEventStore.saveEvents, hne, houter, mapGet_mapSet_self, mapGet]
      · simp [MemoryEventStore.saveEvents, streamAt, hne, houter, mapGet_mapSet_self, mapGet,
          mapSet]
  | some inner =>
    constructor
    · intro stream hstream
      simp only [Option.getD_some] at hstream
      constructor
      · intro hguard
        simp [MemoryEventStore.saveEvents, hne, houter, hstream, hguard]
      · intro hguard
        rcases not_and_or.mp hguard with hempty | hlast
        · have hs0 : stream = [] := not_not.mp hempty
          subst hs0
          constructor
          · simp [MemoryEventStore.saveEvents, hne, houter, hstream]
          · simp [MemoryEventStore.saveEvents, streamAt, hne, houter, hstream,
              mapGet_mapSet_self]
        · have hlast2 : Option.map (fun e => e.version) stream.getLast? = some snapshot.version :=
            not_not.mp hlast
          obtain ⟨x, hx, hv⟩ := Option.map_eq_some'.mp hlast2
          have hcond : ¬(¬stream = [] ∧
              ∀ y, stream.getLast? = some y → ¬y.version = snapshot.version) :=
            fun h => h.2 x hx hv
          constructor
          · simp [MemoryEventStore.saveEvents, hne, houter, hstream]
            rw [if_neg hcond]
          · simp [MemoryEventStore.saveEvents, streamAt, hne, houter, hstream]
            rw [if_neg hcond]
            simp [houter, mapGet_mapSet_self]
    · intro hstream
      simp only [Option.getD_some] at hstream
      constructor
      · simp [MemoryEventStore.saveEvents, hne, houter, hstream]
      · simp [MemoryEventStore.saveEvents, streamAt, hne, houter, hstream, mapGet_mapSet_self]

/-- Witness for the optimistic-lock guard: a stream whose last stored
version is 2 rejects a save built from a snapshot at version 1 and is left
unchanged. -/
theorem saveEvents_optimistic_lock_guard_witness :
    MemoryEventStore.saveEvents
        { eventStreams := [("Cart", [(Uuid.str "c1", [storedEvent 2])])], snapshots := [] }
        "Cart" { id := Uuid.str "c1", version := 1, state := () } [storedEvent 3]
      = (some { name := "Cart" },
         { eventStreams := [("Cart", [(Uuid.str "c1", [storedEvent 2])])], snapshots := [] }) :=
  ((saveEvents_optimistic_lock_guard
      { eventStreams := [("Cart", [(Uuid.str "c1", [storedEvent 2])])], snapshots := [] }
      "Cart" { id := Uuid.str "c1", version := 1, state := () } [storedEvent 3]
      (by decide)).1 [storedEvent 2] (by decide)).1 (by decide)

/-- Reads on a pair that has no entry in either map: `exists` is false,
`loadSnapshot` is absent and `loadEvents` is empty for every base
version. -/
theorem untouched_reads {State : Type} (s : MemoryEventStore State) (name : String) (id : Uuid)
    (h : untouched s name id) :
    MemoryEventStore.«exists» s name id = false
    ∧ MemoryEventStore.loadSnapshot s name id = none
    ∧ ∀ baseVersion, MemoryEventStore.loadEvents s name id baseVersion = [] := by
  obtain ⟨h1, h2⟩ := h
  refine ⟨?_, ?_, ?_⟩
  · simp [MemoryEventStore.«exists», h1, h2]
  · simpa [MemoryEventStore.loadSnapshot] using h2
  · intro baseVersion
    simp [MemoryEventStore.loadEvents, h1]

/-- Creating an empty per-name table cannot create an entry for any
aggregate id. -/
theorem nested_ensure_none {β : Type} (m : List (String × List (Uuid × β))) (name n : String)
    (id : Uuid) (h : (mapGet m name).bind (fun t => mapGet t id) = none) :
    (mapGet (mapSet m n []) name).bind (fun t => mapGet t id) = none := by
  by_cases hn : n = name
  · subst hn
    rw [mapGet_mapSet_self]
    rfl
  · rw [mapGet_mapSet_ne _ _ _ _ (fun hh => hn hh.symm)]
    exact h

/-- Writing a value at `(n, k)` into a two-level map preserves the absence
of the `(name, id)` entry whenever `(n, k)` is not that pair. -/
theorem nested_write_none {β : Type} (m0 : List (String × List (Uuid × β))) (name n : String)
    (id k : Uuid) (inner : List (Uuid × β)) (v : β)
    (houter : (mapGet m0 name).bind (fun t => mapGet t id) = none)
    (hinner : n = name → mapGet inner id = none)
    (hk : ¬(n = name ∧ k = id)) :
    (mapGet (mapSet m0 n (mapSet inner k v)) name).bind (fun t => mapGet t id) = none := by
  by_cases hn : n = name
  · subst hn
    have hkid : k ≠ id := fun hb => hk ⟨rfl, hb⟩
    rw [mapGet_mapSet_self]
    show mapGet (mapSet inner k v) id = none
    rw [mapGet_mapSet_ne _ _ _ _ (Ne.symm hkid)]
    exact hinner rfl
  · rw [mapGet_mapSet_ne _ _ _ _ (fun hh => hn hh.symm)]
    exact houter

/-- Every store mutation that does not save a snapshot or events for
`(name, id)` preserves the absence of that entry. -/
theorem untouched_applyOp {State : Type} (name : String) (id : Uuid) (op : StoreOp State)
    (s : MemoryEventStore State) (hs : untouched s name id)
    (hop : opSavesTo op name id = false) : untouched (applyOp s op) name id := by
  obtain ⟨h1, h2⟩ := hs
  cases op with
  | saveSnapshot n snapshot =>
    have hno : ¬(n = name ∧ snapshot.id = id) := by
      rintro ⟨ha, hb⟩
      simp [opSavesTo, ha, hb] at hop
    cases hget : mapGet s.snapshots n with
    | none =>
      constructor
      · simpa [applyOp, MemoryEventStore.saveSnapshot, hget, mapGet_mapSet_self, mapGet]
          using h1
      · simpa [applyOp, MemoryEventStore.saveSnapshot, hget, mapGet_mapSet_self, mapGet]
          using nested_write_none (mapSet s.snapshots n []) name n id snapshot.id [] snapshot
            (nested_ensure_none s.snapshots name n id h2) (fun _ => rfl) hno
    | some inner0 =>
      have hinner_id : n = name → mapGet inner0 id = none := by
        intro hn
        subst hn
        rw [hget] at h2
        simpa using h2
      cases hinner : mapGet inner0 snapshot.id with
      | none =>
        constructor
        · simpa [applyOp, MemoryEventStore.saveSnapshot, hget, hinner] using h1
        · simpa [applyOp, MemoryEventStore.saveSnapshot, hget, hinner]
            using nested_write_none s.snapshots name n id snapshot.id inner0 snapshot
              h2 hinner_id hno
      | some latest =>
        by_cases hv : snapshot.version < latest.version
        · constructor
          · simpa [applyOp, MemoryEventStore.saveSnapshot, hget, hinner, hv] using h1
          · simpa [applyOp, MemoryEventStore.saveSnapshot, hget, hinner, hv] using h2
        · constructor
          · simpa [applyOp, MemoryEventStore.saveSnapshot, hget, hinner, hv] using h1
          · simpa [applyOp, MemoryEventStore.saveSnapshot, hget, hinner, hv]
              using nested_write_none s.snapshots name n id snapshot.id inner0 snapshot
                h2 hinner_id hno
  | dropSnapshot n i version =>
    cases hget : mapGet s.snapshots n with
    | none =>
      constructor
      · simpa [applyOp, MemoryEventStore.dropSnapshot, hget] using h1
      · simpa [applyOp, MemoryEventStore.dropSnapshot, hget] using h2
    | some inner0 =>
      cases hinner : mapGet inner0 i with
      | none =>
        constructor
        · simpa [applyOp, MemoryEventStore.dropSnapshot, hget, hinner] using h1
        · simpa [applyOp, MemoryEventStore.dropSnapshot, hget, hinner] using h2
      | some snap0 =>
        by_cases hv : snap0.version = version
        · have hw : (mapGet (mapSet s.snapshots n (mapDelete inner0 i)) name).bind
              (fun t => mapGet t id) = none := by
            by_cases hn : n = name
            · subst hn
              rw [mapGet_mapSet_self]
              show mapGet (mapDelete inner0 i) id = none
              have hid : mapGet inner0 id = none := by
                rw [hget] at h2
                simpa using h2
              exact mapGet_mapDelete_of_none inner0 id i hid
            · rw [mapGet_mapSet_ne _ _ _ _ (fun hh => hn hh.symm)]
              exact h2
          constructor
          · simpa [applyOp, MemoryEventStore.dropSnapshot, hget, hinner, hv] using h1
          · simpa [applyOp, MemoryEventStore.dropSnapshot, hget, hinner, hv] using hw
        · constructor
          · simpa [applyOp, MemoryEventStore.dropSnapshot, hget, hinner, hv] using h1
          · simpa [applyOp, MemoryEventStore.dropSnapshot, hget, hinner, hv] using h2
  | saveEvents n snapshot events =>
    have hno : ¬(n = name ∧ snapshot.id = id) := by
      rintro ⟨ha, hb⟩
      simp [opSavesTo, ha, hb] at hop
    by_cases hevents : events = []
    · constructor
      · simpa [applyOp, MemoryEventStore.saveEvents, hevents] using h1
      · simpa [applyOp, MemoryEventStore.saveEvents, hevents] using h2
    · cases hget : mapGet s.eventStreams n with
      | none =>
        constructor
        · simpa [applyOp, MemoryEventStore.saveEvents, hevents, hget, mapGet_mapSet_self,
            mapGet]
            using nested_write_none (mapSet s.eventStreams n []) name n id snapshot.id [] events
              (nested_ensure_none s.eventStreams name n id h1) (fun _ => rfl) hno
        · simpa [applyOp, MemoryEventStore.saveEvents, hevents, hget, mapGet_mapSet_self,
            mapGet] using h2
      | some inner0 =>
        have hinner_id : n = name → mapGet inner0 id = none := by
          intro hn
          subst hn
          rw [hget] at h1
          simpa using h1
        cases hinner : mapGet inner0 snapshot.id with
        | none =>
          constructor
          · simpa [applyOp, MemoryEventStore.saveEvents, hevents, hget, hinner]
              using nested_write_none s.eventStreams name n id snapshot.id inner0 events
                h1 hinner_id hno
          · simpa [applyOp, MemoryEventStore.saveEvents, hevents, hget, hinner] using h2
        | some stream0 =>
          by_cases hguard : stream0 ≠ []
              ∧ stream0.getLast?.map (fun e => e.version) ≠ some snapshot.version
          · constructor
            · simpa [applyOp, MemoryEventStore.saveEvents, hevents, hget, hinner, hguard]
                using h1
            · simpa [applyOp, MemoryEventStore.saveEvents, hevents, hget, hinner, hguard]
                using h2
          · rcases not_and_or.mp hguard with hempty | hlast
            · have hs0 : stream0 = [] := not_not.mp hempty
              subst hs0
              constructor
              · simpa [applyOp, MemoryEventStore.saveEvents, hevents, hget, hinner]
                  using nested_write_none s.eventStreams name n id snapshot.id inner0 events
                    h1 hinner_id hno
              · simpa [applyOp, MemoryEventStore.saveEvents, hevents, hget, hinner] using h2
            · have hlast2 : Option.map (fun e => e.version) stream0.getLast?
                  = some snapshot.version := not_not.mp hlast
              obtain ⟨x, hx, hv⟩ := Option.map_eq_some'.mp hlast2
              have hcond : ¬(¬stream0 = [] ∧
                  ∀ y, stream0.getLast? = some y → ¬y.version = snapshot.version) :=
                fun h => h.2 x hx hv
              constructor
              · simp [applyOp, MemoryEventStore.saveEvents, hevents, hget, hinner]
                rw [if_neg hcond]
                simpa using nested_write_none s.eventStreams name n id snapshot.id inner0
                  (stream0 ++ events) h1 hinner_id hno
              · simp [applyOp, MemoryEventStore.saveEvents, hevents, hget, hinner]
                rw [if_neg hcond]
                simpa using h2

/-- Claim C10: for a `(name, id)` pair to which no snapshot and no events
were ever saved — any operation sequence from the empty store in which
every save targets a different pair, drops being always allowed — the read
operations are total and report absence: `exists` is false, `loadSnapshot`
is absent, and `loadEvents` is empty for every base version. -/
theorem reads_on_unsaved_aggregate {State : Type} (name : String) (id : Uuid)
    (ops : List (StoreOp State))
    (hops : ∀ op ∈ ops, opSavesTo op name id = false) :
    MemoryEventStore.«exists» (ops.foldl applyOp MemoryEventStore.empty) name id = false
    ∧ MemoryEventStore.loadSnapshot (ops.foldl applyOp MemoryEventStore.empty) name id = none
    ∧ ∀ baseVersion,
        MemoryEventStore.loadEvents (ops.foldl applyOp MemoryEventStore.empty) name id baseVersion
          = [] := by
  have hfold : ∀ (l : List (StoreOp State)) (s : MemoryEventStore State),
      (∀ op ∈ l, opSavesTo op name id = false) → untouched s name id →
      untouched (l.foldl applyOp s) name id := by
    intro l
    induction l with
    | nil => intro s _ hs; exact hs
    | cons op rest ih =>
      intro s hl hs
      exact ih (applyOp s op) (fun o ho => hl o (List.mem_cons_of_mem op ho))
        (untouched_applyOp name id op s hs (hl op (List.mem_cons_self op rest)))
  exact untouched_reads _ name id
    (hfold ops MemoryEventStore.empty hops ⟨rfl, rfl⟩)

/-- Witness for the unsaved-aggregate reads: after saving events for
`("Bar", b1)`, a snapshot for `("Cart", c2)` and dropping a snapshot at
`("Cart", c1)`, the pair `("Cart", c1)` still does not exist. -/
theorem reads_on_unsaved_aggregate_witness :
    MemoryEventStore.«exists»
        (([StoreOp.saveEvents "Bar" { id := Uuid.str "b1", version := 0, state := () }
             [storedEvent 1],
           StoreOp.saveSnapshot "Cart" { id := Uuid.str "c2", version := 1, state := () },
           StoreOp.dropSnapshot "Cart" (Uuid.str "c1") 1] :
          List (StoreOp Unit)).foldl applyOp MemoryEventStore.empty)
        "Cart" (Uuid.str "c1")
      = false :=
  (reads_on_unsaved_aggregate "Cart" (Uuid.str "c1")
    [StoreOp.saveEvents "Bar" { id := Uuid.str "b1", version := 0, state := () }
       [storedEvent 1],
     StoreOp.saveSnapshot "Cart" { id := Uuid.str "c2", version := 1, state := () },
     StoreOp.dropSnapshot "Cart" (Uuid.str "c1") 1]
    (by decide)).1

/-- Claim C5 (counterexample to the claimed budget of 5 attempts): against
a repository whose saves always conflict, the router performs 6 save
attempts — the trace of save outcomes has length 6 — before surfacing
`OptimisticLockError`, so the claimed bound of at most 5 attempts is
violated. -/
theorem handleCommand_six_attempts_counterexample :
    EventSourcingRouter.handleCommand alwaysLockRepo [(cartAggregate, unitHandler)] []
        addItemCommand1 0 0
      = (Except.error RouterError.optimisticLock, List.replicate 6 SaveOutcome.lockError)
    ∧ ¬ ((List.replicate 6 SaveOutcome.lockError).length ≤ 5) := by
  exact ⟨rfl, by decide⟩

/-- Claim C5 (amended): `createEventSourcingRouter.handleCommand` performs
at most 6 attempts of the load–handle–derive–save sequence (the loop guard
is `i < 5` on a zero-based counter, an initial attempt plus up to five
retries); `OptimisticLockError` is surfaced exactly when all 6 saves hit a
lock conflict; any other save error is surfaced at the attempt that raised
it, with only lock conflicts before it, never retried; an unroutable
command performs no attempt at all; success comes after a prefix of lock
conflicts. -/
theorem handleCommand_retry_budget {State σ : Type} (repo : RepoModel State σ)
    (aggregateMap : List (IAggregate State × IStatefulHandler State))
    (processManagerMap : List (IProcessManager State × IStatefulHandler State))
    (command : IIdentifiableMessage) (now : Int) (s : σ) :
    (EventSourcingRouter.handleCommand repo aggregateMap processManagerMap command now s).2.length ≤ 6
    ∧ ((EventSourcingRouter.handleCommand repo aggregateMap processManagerMap command now s).1
          = Except.error RouterError.optimisticLock →
        (EventSourcingRouter.handleCommand repo aggregateMap processManagerMap command now s).2
          = List.replicate 6 SaveOutcome.lockError)
    ∧ ((EventSourcingRouter.handleCommand repo aggregateMap processManagerMap command now s).1
          = Except.error RouterError.otherError →
        ∃ k, k ≤ 5 ∧
          (EventSourcingRouter.handleCommand repo aggregateMap processManagerMap command now s).2
            = List.replicate k SaveOutcome.lockError ++ [SaveOutcome.otherError])
    ∧ ((EventSourcingRouter.handleCommand repo aggregateMap processManagerMap command now s).1
          = Except.error RouterError.unhandledCommand →
        (EventSourcingRouter.handleCommand repo aggregateMap processManagerMap command now s).2 = [])
    ∧ (∀ s2, (EventSourcingRouter.handleCommand repo aggregateMap processManagerMap command now s).1
          = Except.ok s2 →
        ∃ k, k ≤ 5 ∧
          ((EventSourcingRouter.handleCommand repo aggregateMap processManagerMap command now s).2
              = List.replicate k SaveOutcome.lockError ++ [SaveOutcome.ok]
            ∨ (EventSourcingRouter.handleCommand repo aggregateMap processManagerMap command now s).2
              = List.replicate k SaveOutcome.lockError)) := by
  rcases hfind : aggregateMap.find? (fun e => e.1.isSupportedCommand command) with _ | e
  · rcases hfind2 : processManagerMap.find? (fun e => e.1.asAggregate.isSupportedCommand command)
      with _ | e2
    · simp only [EventSourcingRouter.handleCommand, hfind, hfind2]
      exact ⟨by simp, by simp, by simp, by simp, by simp⟩
    · simp only [EventSourcingRouter.handleCommand, hfind, hfind2]
      obtain ⟨hlen, hun, hlock, hother, hok⟩ :=
        handleCommandAttempts_trace repo e2.1.asAggregate e2.2 command now 5 s
      exact ⟨by simpa using hlen, by simpa using hlock, by simpa using hother,
        fun h => absurd h hun, by simpa using hok⟩
  · simp only [EventSourcingRouter.handleCommand, hfind]
    obtain ⟨hlen, hun, hlock, hother, hok⟩ :=
      handleCommandAttempts_trace repo e.1 e.2 command now 5 s
    exact ⟨by simpa using hlen, by simpa using hlock, by simpa using hother,
      fun h => absurd h hun, by simpa using hok⟩

/-- Witness for the amended retry-budget theorem: applied to the
always-conflicting repository, the lock-surfacing case is realized with a
trace of exactly 6 lock conflicts. -/
theorem handleCommand_retry_budget_witness :
    (EventSourcingRouter.handleCommand alwaysLockRepo [(cartAggregate, unitHandler)] []
        addItemCommand1 0 0).2 = List.replicate 6 SaveOutcome.lockError :=
  (handleCommand_retry_budget alwaysLockRepo [(cartAggregate, unitHandler)] []
    addItemCommand1 0 0).2.1 rfl

/-- The listener phase of `handleEvent`: folding the accumulator over the
listener registry appends, in registration order, the commands of every
listener adopting the event. -/
theorem handleEvent_listener_fold (event : IIdentifiableMessage) :
    ∀ (ls : List IEventListener) (acc : List IMessage),
      ls.foldl (fun acc l =>
          if l.isAdoptedEvent event then acc ++ (l.handleAdoptedEvent event).getD [] else acc) acc
        = acc ++ (ls.filter (fun l => l.isAdoptedEvent event)).flatMap
            (fun l => (l.handleAdoptedEvent event).getD []) := by
  intro ls
  induction ls with
  | nil => intro acc; simp
  | cons l rest ih =>
    intro acc
    by_cases hl : l.isAdoptedEvent event
    · simp [hl, ih, List.filter_cons, List.append_assoc]
    · simp [hl, ih, List.filter_cons]

/-- The process-manager phase of `handleEvent`: when loads leave the
repository state unchanged, folding over the process-manager registry
appends, in registration order, the commands of every manager adopting the
event, each computed against the snapshot loaded from the initial state. -/
theorem handleEvent_pm_fold {State σ : Type} (repo : RepoModel State σ)
    (event : IIdentifiableMessage)
    (hload : ∀ (s : σ) (a : IAggregate State) (h : IStatefulHandler State) (id : Uuid),
      (repo.load s a h id).2 = s) :
    ∀ (pms : List (IProcessManager State × IStatefulHandler State)) (acc : List IMessage) (s : σ),
      pms.foldl (fun (p : List IMessage × σ) e =>
          if e.1.isAdoptedEvent event then
            (p.1 ++ (e.1.handleAdoptedEvent e.2 event
                (repo.load p.2 e.1.asAggregate e.2 (e.1.asAggregate.getAggregateId event)).1).getD [],
             (repo.load p.2 e.1.asAggregate e.2 (e.1.asAggregate.getAggregateId event)).2)
          else p) (acc, s)
        = (acc ++ (pms.filter (fun e => e.1.isAdoptedEvent event)).flatMap
            (fun e => (e.1.handleAdoptedEvent e.2 event
              (repo.load s e.1.asAggregate e.2 (e.1.asAggregate.getAggregateId event)).1).getD []),
           s) := by
  intro pms
  induction pms with
  | nil => intro acc s; simp
  | cons e rest ih =>
    intro acc s
    rw [List.foldl_cons]
    by_cases he : e.1.isAdoptedEvent event
    · rw [if_pos he]
      simp only []
      rw [hload, ih]
      simp [List.filter_cons, he, List.append_assoc]
    · rw [if_neg he, ih]
      simp [List.filter_cons, he]

/-- Claim C7 (counterexample to "agents iterated in registration order"):
registering a process manager before an event listener, the router derives
and dispatches the listener's command with index 0 and the manager's with
index 1, while iterating agents in registration order would assign the
indices the other way around, producing different derived ids and a
different batch. -/
theorem handleEvent_registration_order_counterexample :
    EventSourcingRouter.handleEvent unitRepo (registeredListeners pmFirstRegistration)
        (registeredProcessManagers pmFirstRegistration) orderPlacedEvent 0 ()
      ≠ specHandleEvent unitRepo pmFirstRegistration orderPlacedEvent 0 () := by
  decide

/-- Claim C7 (amended): `createEventSourcingRouter.handleEvent` collects
the commands of all matching event listeners first (in registration
order), then of all matching process managers (in registration order, each
against its loaded snapshot), derives each command of the combined list
via `deriveCommand(event, command, index)` with the index enumerated
across the combined list from 0, and forwards the derived commands as one
batch through the injected dispatcher (dispatching nothing when the list
is empty); the hypothesis states that snapshot loads leave the repository
state unchanged, as they do for the in-memory store. -/
theorem handleEvent_combined_dispatch {State σ : Type} (repo : RepoModel State σ)
    (eventListenerMap : List IEventListener)
    (processManagerMap : List (IProcessManager State × IStatefulHandler State))
    (event : IIdentifiableMessage) (now : Int) (s : σ)
    (hload : ∀ (s' : σ) (a : IAggregate State) (h : IStatefulHandler State) (id : Uuid),
      (repo.load s' a h id).2 = s') :
    EventSourcingRouter.handleEvent repo eventListenerMap processManagerMap event now s
      = (let combined :=
          (eventListenerMap.filter (fun l => l.isAdoptedEvent event)).flatMap
              (fun l => (l.handleAdoptedEvent event).getD [])
            ++ (processManagerMap.filter (fun e => e.1.isAdoptedEvent event)).flatMap
              (fun e => (e.1.handleAdoptedEvent e.2 event
                (repo.load s e.1.asAggregate e.2
                  (e.1.asAggregate.getAggregateId event)).1).getD []);
         (if combined = [] then none
          else some (jsMapIdx (fun index command => deriveCommand now event command index) combined),
          s)) := by
  simp only [EventSourcingRouter.handleEvent]
  rw [handleEvent_listener_fold event eventListenerMap []]
  rw [handleEvent_pm_fold repo event hload processManagerMap]
  simp only [List.nil_append]
  split <;> rfl

/-- Witness for the amended `handleEvent` theorem: one listener and one
process manager both adopting the event produce the two derived commands
as a single dispatched batch, with the listener's command at index 0. -/
theorem handleEvent_combined_dispatch_witness :
    EventSourcingRouter.handleEvent unitRepo [listenerAgentL] [(pmAgentP, unitHandler)]
        orderPlacedEvent 0 ()
      = (some [deriveCommand 0 orderPlacedEvent { type := "CMD_L", payload := "l" } 0,
               deriveCommand 0 orderPlacedEvent { type := "CMD_P", payload := "p" } 1], ()) :=
  (handleEvent_combined_dispatch unitRepo [listenerAgentL] [(pmAgentP, unitHandler)]
    orderPlacedEvent 0 () (fun _ _ _ _ => rfl)).trans (by decide)

/-- Claim C8: loading the same aggregate twice from the same store state
returns equal snapshots (same id, same version, same state); moreover the
repository's load over the in-memory store leaves the store untouched, so
two loads in a row indeed observe the same store state. -/
theorem load_replay_idempotent {State : Type} (s : MemoryEventStore State)
    (agent : IAggregate State) (handler : IStatefulHandler State) (id : Uuid) :
    ((memoryRepo State).load s agent handler id).2 = s
    ∧ (Repository.load s agent handler id).id = (Repository.load s agent handler id).id
    ∧ (Repository.load s agent handler id).version = (Repository.load s agent handler id).version
    ∧ (Repository.load s agent handler id).state = (Repository.load s agent handler id).state :=
  ⟨rfl, rfl, rfl, rfl⟩

/-- Claim C9: `MemoryEventStore.saveEvents` with an empty event list
returns at once: the store is returned unchanged (so no stream entry is
created and no optimistic-lock comparison is reached, whatever the stored
stream's last version is) and `exists` keeps its previous value. -/
theorem saveEvents_empty_noop {State : Type} (s : MemoryEventStore State) (name : String)
    (snapshot : ISnapshot State) :
    MemoryEventStore.saveEvents s name snapshot [] = (none, s)
    ∧ MemoryEventStore.«exists» (MemoryEventStore.saveEvents s name snapshot []).2 name snapshot.id
      = MemoryEventStore.«exists» s name snapshot.id := by
  constructor
  · rfl
  · rfl

end EventSorcerer
